import Mathlib

/-
  Verification development for a Lamport-clock mutual-exclusion engine.

  The definitions below are a shallow embedding of the repository's Python
  sources:
    - logical_clock.py : LogicalClock.tick / LogicalClock.update
      (LogicalClockWithHistory only adds a textual history log on top of the
      numeric behaviour, so the clock value is embedded as a plain Nat);
    - server.py : the Request record with its comparison, the
      MutualExclusionState container with its queue / reply bookkeeping, and
      the RequestEntry RPC handler of ExclusionManagerServicer.

  Python-specific conventions carried over faithfully:
    - Python string comparison is lexicographic on Unicode code points;
      it is embedded as charListLt on String.data.
    - Python list.sort() is a stable sort driven by the element's "lt"
      comparison; a stable sort w.r.t. the induced total preorder is a
      uniquely determined function of the input, so it is embedded as the
      stable insertion sort pySort below.
    - Python dicts are embedded as association lists with unique keys
      (insertion replaces the previous binding), Python sets as lists with
      membership semantics.
-/

/-- Lexicographic comparison of character lists by code point; this is the
comparison Python applies to strings. -/
def charListLt : List Char → List Char → Bool
  | [], [] => false
  | [], _ :: _ => true
  | _ :: _, [] => false
  | a :: as, b :: bs => if a < b then true else if b < a then false else charListLt as bs

/-- Python's `<` on strings. -/
def pyStrLt (a b : String) : Bool := charListLt a.data b.data

/-- Insert x into l, placing it before the first element y that is not
strictly below x (so x lands after every earlier-listed element it ties
with). -/
def pyInsert {α : Type} (lt : α → α → Bool) (x : α) : List α → List α
  | [] => [x]
  | y :: ys => if lt y x then y :: pyInsert lt x ys else x :: y :: ys

/-- Stable sort driven by a strict comparison, as Python's list.sort() is:
elements the comparison cannot distinguish keep their relative order.
(Insertion proceeds from the back, and pyInsert stops at ties, which
together give stability.) -/
def pySort {α : Type} (lt : α → α → Bool) : List α → List α
  | [] => []
  | x :: xs => pyInsert lt x (pySort lt xs)

/-- logical_clock.py, LogicalClock.tick: increment clock for a local event. -/
def LogicalClock.tick (t : Nat) : Nat := t + 1

/-- logical_clock.py, LogicalClock.update: on receiving a timestamped
message, set the clock to max(local, received) + 1. -/
def LogicalClock.update (t received_time : Nat) : Nat := max t received_time + 1

/-- server.py, dataclass Request: (timestamp, process_id, resource_id). -/
structure Request where
  timestamp : Nat
  process_id : String
  resource_id : String
deriving DecidableEq

/-- server.py, Request.__lt__: earlier timestamp first, ties broken by
process_id; resource_id is not consulted. -/
def Request.ltB (a other : Request) : Bool :=
  if a.timestamp == other.timestamp then pyStrLt a.process_id other.process_id
  else a.timestamp < other.timestamp

/-- The non-strict relation under which Python's stable sort orders the
queue: a may stay before b exactly when not (b < a). -/
def reqLe (a b : Request) : Bool := !(Request.ltB b a)

/-- Key equality on (process_id, resource_id), the dict key of the queue. -/
def Request.sameKey (a : Request) (process_id resource_id : String) : Bool :=
  a.process_id == process_id && a.resource_id == resource_id

/-- Association-list insert that replaces any previous binding of the key,
modelling Python dict assignment. -/
def dictInsert {α : Type} (k : String) (v : α) (d : List (String × α)) :
    List (String × α) :=
  (k, v) :: d.filter (fun kv => kv.1 != k)

/-- Association-list delete, modelling Python `del d[k]`. -/
def dictErase {α : Type} (k : String) (d : List (String × α)) :
    List (String × α) :=
  d.filter (fun kv => kv.1 != k)

/-- Set insert, modelling Python `s.add(x)`. -/
def setAdd (s : List String) (x : String) : List String :=
  if s.contains x then s else x :: s

/-- server.py, MutualExclusionState.__init__: per-process coordinator
state. -/
structure MutualExclusionState where
  process_id : String
  peer_ports : List Nat
  request_queue : List Request
  pending_replies : List (String × List String)
  in_critical_section : Bool
  current_resource : Option String
  our_requests : List (String × Request)
deriving DecidableEq

/-- server.py, MutualExclusionState.__init__ starts with everything
empty. -/
def MutualExclusionState.init (process_id : String) (peer_ports : List Nat) :
    MutualExclusionState :=
  ⟨process_id, peer_ports, [], [], false, none, []⟩

/-- The queue transformation of server.py, MutualExclusionState.add_request:
drop any record with the same (process_id, resource_id), append the new one,
and re-sort stably. -/
def addToQueue (queue : List Request) (request : Request) : List Request :=
  pySort Request.ltB
    ((queue.filter (fun r => !(r.sameKey request.process_id request.resource_id)))
      ++ [request])

/-- The queue transformation of server.py,
MutualExclusionState.remove_request: drop every record with the given
(process_id, resource_id). -/
def removeFromQueue (queue : List Request) (process_id resource_id : String) :
    List Request :=
  queue.filter (fun r => !(r.sameKey process_id resource_id))

/-- server.py, MutualExclusionState.add_request. -/
def MutualExclusionState.add_request (s : MutualExclusionState)
    (request : Request) : MutualExclusionState :=
  { s with request_queue := addToQueue s.request_queue request }

/-- server.py, MutualExclusionState.remove_request. -/
def MutualExclusionState.remove_request (s : MutualExclusionState)
    (process_id resource_id : String) : MutualExclusionState :=
  { s with request_queue := removeFromQueue s.request_queue process_id resource_id }

/-- The reply set the admission check demands: names synthesized as
"Process-1" .. "Process-(len(peer_ports)+1)", minus this process's own id
(server.py, can_enter_critical_section, the expected_replies
comprehension). -/
def expectedReplies (process_id : String) (peer_ports : List Nat) :
    List String :=
  ((List.range (peer_ports.length + 1)).map
      (fun i => "Process-" ++ toString (i + 1))).filter
    (fun n => n != process_id)

/-- server.py, MutualExclusionState.can_enter_critical_section. -/
def MutualExclusionState.can_enter_critical_section
    (s : MutualExclusionState) (resource_id : String) : Bool :=
  if s.in_critical_section then false
  else
    match List.lookup resource_id s.our_requests with
    | none => false
    | some our_request =>
      match s.request_queue.head? with
      | none => false
      | some front =>
        if front != our_request then false
        else
          match List.lookup resource_id s.pending_replies with
          | none => true
          | some received_replies =>
            if (expectedReplies s.process_id s.peer_ports).all
                (fun p => received_replies.contains p) then true
            else false

/-- server.py, MutualExclusionState.enter_critical_section. -/
def MutualExclusionState.enter_critical_section (s : MutualExclusionState)
    (resource_id : String) : MutualExclusionState :=
  { s with in_critical_section := true, current_resource := some resource_id }

/-- server.py, MutualExclusionState.exit_critical_section. -/
def MutualExclusionState.exit_critical_section (s : MutualExclusionState) :
    MutualExclusionState :=
  match s.current_resource with
  | none => { s with in_critical_section := false, current_resource := none }
  | some resource_id =>
    let s1 : MutualExclusionState :=
      { s with in_critical_section := false, current_resource := none }
    let s2 : MutualExclusionState :=
      if (List.lookup resource_id s1.our_requests).isSome then
        { s1.remove_request s1.process_id resource_id with
            our_requests := dictErase resource_id s1.our_requests }
      else s1
    if (List.lookup resource_id s2.pending_replies).isSome then
      { s2 with pending_replies := dictErase resource_id s2.pending_replies }
    else s2

/-- server.py, MutualExclusionState.add_reply: record that from_process
acknowledged our request for resource_id. -/
def MutualExclusionState.add_reply (s : MutualExclusionState)
    (resource_id from_process : String) : MutualExclusionState :=
  let current := (List.lookup resource_id s.pending_replies).getD []
  { s with pending_replies :=
      dictInsert resource_id (setAdd current from_process) s.pending_replies }

/-- server.py, MutualExclusionState.add_our_request: register our own
request, enqueue it, and start an empty reply set for its resource. -/
def MutualExclusionState.add_our_request (s : MutualExclusionState)
    (request : Request) : MutualExclusionState :=
  let s1 : MutualExclusionState :=
    { s with our_requests :=
        dictInsert request.resource_id request s.our_requests }
  let s2 := s1.add_request request
  { s2 with pending_replies :=
      dictInsert request.resource_id [] s2.pending_replies }

/-- The fields of em_pb2.RequestMessage used by the handler. -/
structure RequestMessage where
  timestamp : Nat
  process_id : String
  resource_id : String

/-- The fields of em_pb2.ReplyMessage produced by the handler. -/
structure ReplyMessage where
  timestamp : Nat
  process_id : String
  granted : Bool
  message : String

/-- The state of one ExclusionManagerServicer: its Lamport clock value and
its mutual-exclusion bookkeeping (server.py, ExclusionManagerServicer). -/
structure ServerState where
  clock : Nat
  mutex_state : MutualExclusionState

/-- server.py, ExclusionManagerServicer.RequestEntry: update the clock with
the incoming timestamp, enqueue the incoming request, then tick the clock
and answer with that fresh timestamp and granted = true.  (The simulated
processing delay between the insert and the reply has no effect on the
state and is not modelled.) -/
def RequestEntry (s : ServerState) (request : RequestMessage) :
    ServerState × ReplyMessage :=
  let updated_time := LogicalClock.update s.clock request.timestamp
  let incoming_request : Request :=
    ⟨request.timestamp, request.process_id, request.resource_id⟩
  let m := s.mutex_state.add_request incoming_request
  let reply_timestamp := LogicalClock.tick updated_time
  (⟨reply_timestamp, m⟩,
   ⟨reply_timestamp, s.mutex_state.process_id, true,
    "Request acknowledged by " ++ s.mutex_state.process_id⟩)

/-- A queue operation: the two mutators of the request_queue field. -/
inductive QOp where
  | add (request : Request)
  | remove (process_id resource_id : String)

/-- Apply one queue operation to a coordinator state. -/
def applyQOp (s : MutualExclusionState) : QOp → MutualExclusionState
  | .add request => s.add_request request
  | .remove process_id resource_id => s.remove_request process_id resource_id

/-- Apply a sequence of queue operations. -/
def applyQOps (s : MutualExclusionState) (ops : List QOp) :
    MutualExclusionState :=
  ops.foldl applyQOp s

/-- A clock operation: the two mutators of a LogicalClock. -/
inductive ClockOp where
  | tick
  | update (received_time : Nat)

/-- Apply one clock operation, yielding the value the call returns (which
is also the new counter). -/
def clockStep (t : Nat) : ClockOp → Nat
  | .tick => LogicalClock.tick t
  | .update received_time => LogicalClock.update t received_time

/-- The sequence of values returned by a sequence of tick/update calls
starting from counter t. -/
def clockReturns (t : Nat) : List ClockOp → List Nat
  | [] => []
  | op :: ops =>
    let t' := clockStep t op
    t' :: clockReturns t' ops

/-
  Interleaving model of a multi-process execution.  Each process runs the
  server code above; every event below is one of the code's atomic
  lock-protected sections, scheduled in some order:
    - request i r: the start of request_critical_section on process i
      (clock tick, Request construction, add_our_request), before the
      broadcast begins (server.py, request_critical_section);
    - round_trip i j r: one blocking RPC of _broadcast_request: process j
      runs the RequestEntry handler on i's stored request for r, then the
      calling thread on i consumes the reply (clock update, add_reply)
      (server.py, _broadcast_request and RequestEntry).  Requests to
      distinct peers are separate connections, so round trips of different
      processes may interleave arbitrarily;
    - enter i r: _wait_for_critical_section_access observes
      can_enter_critical_section = true and enter_critical_section runs; the
      event is a no-op while the admission predicate is false.
  No event is ever dropped in the schedules considered, so these are
  executions without message loss.
-/

/-- A global state: each process name mapped to its server state. -/
def World : Type := List (String × ServerState)

/-- Replace the state of process i. -/
def worldSet (i : String) (s : ServerState) (w : World) : World :=
  w.map (fun kv => if kv.1 == i then (kv.1, s) else kv)

/-- One schedulable atomic event of the system. -/
inductive Ev where
  | request (i r : String)
  | round_trip (i j r : String)
  | enter (i r : String)

/-- Execute one event against the global state. -/
def stepEv (w : World) : Ev → World
  | .request i r =>
    match List.lookup i w with
    | none => w
    | some s =>
      let request_timestamp := LogicalClock.tick s.clock
      let our_request : Request := ⟨request_timestamp, i, r⟩
      worldSet i ⟨request_timestamp, s.mutex_state.add_our_request our_request⟩ w
  | .round_trip i j r =>
    match List.lookup i w, List.lookup j w with
    | some si, some sj =>
      match List.lookup r si.mutex_state.our_requests with
      | none => w
      | some req =>
        let message : RequestMessage := ⟨req.timestamp, req.process_id, req.resource_id⟩
        let handled := RequestEntry sj message
        let reply := handled.2
        let clock_i := LogicalClock.update si.clock reply.timestamp
        let si' : ServerState :=
          ⟨clock_i, si.mutex_state.add_reply r reply.process_id⟩
        worldSet j handled.1 (worldSet i si' w)
    | _, _ => w
  | .enter i r =>
    match List.lookup i w with
    | none => w
    | some s =>
      if s.mutex_state.can_enter_critical_section r then
        worldSet i ⟨s.clock, s.mutex_state.enter_critical_section r⟩ w
      else w

/-- Run a schedule of events. -/
def runSchedule (w : World) (evs : List Ev) : World :=
  evs.foldl stepEv w

/-- Three processes as launched by run_processes.py: ids "Process-1",
"Process-2", "Process-3" on ports 50051-50053, each knowing the other two
ports as peers. -/
def initialWorld : World :=
  [("Process-1", ⟨0, MutualExclusionState.init "Process-1" [50052, 50053]⟩),
   ("Process-2", ⟨0, MutualExclusionState.init "Process-2" [50051, 50053]⟩),
   ("Process-3", ⟨0, MutualExclusionState.init "Process-3" [50051, 50052]⟩)]

/-- A schedule with no message loss in which Process-1's request messages
are merely slow: Process-2 completes its whole request round and enters the
critical section for "R" before Process-1's request reaches anyone; then
Process-1's round trips complete (every peer still answers granted = true,
replies are never deferred) and Process-1, being queue head at home with
every acknowledgment in hand, enters the same critical section. -/
def violatingSchedule : List Ev :=
  [.request "Process-1" "R",
   .request "Process-2" "R",
   .round_trip "Process-2" "Process-1" "R",
   .round_trip "Process-2" "Process-3" "R",
   .enter "Process-2" "R",
   .round_trip "Process-1" "Process-2" "R",
   .round_trip "Process-1" "Process-3" "R",
   .enter "Process-1" "R"]

/-- The final state of that schedule. -/
def finalWorld : World := runSchedule initialWorld violatingSchedule

/-- Is process i inside the critical section for resource r? -/
def inCS (w : World) (i r : String) : Bool :=
  match List.lookup i w with
  | none => false
  | some s =>
    s.mutex_state.in_critical_section &&
      s.mutex_state.current_resource == some r

/-! ### Order-theoretic facts about the Python comparisons -/

theorem charListLt_irrefl (l : List Char) : charListLt l l = false := by
  induction l with
  | nil => rfl
  | cons a as ih =>
    show (if a < a then true else if a < a then false else charListLt as as) = false
    rw [if_neg (lt_irrefl a), if_neg (lt_irrefl a), ih]

theorem charListLt_asymm :
    ∀ a b : List Char, charListLt a b = true → charListLt b a = false := by
  intro a
  induction a with
  | nil =>
    intro b h
    cases b with
    | nil => simp [charListLt] at h
    | cons y ys => rfl
  | cons x xs ih =>
    intro b h
    cases b with
    | nil => simp [charListLt] at h
    | cons y ys =>
      show (if y < x then true else if x < y then false else charListLt ys xs) = false
      by_cases hxy : x < y
      · rw [if_neg (lt_asymm hxy), if_pos hxy]
      · rw [show charListLt (x :: xs) (y :: ys)
            = (if x < y then true else if y < x then false else charListLt xs ys) from rfl,
          if_neg hxy] at h
        by_cases hyx : y < x
        · rw [if_pos hyx] at h
          exact absurd h (by simp)
        · rw [if_neg hyx] at h
          rw [if_neg hyx, if_neg hxy]
          exact ih ys h

theorem charListLt_trans :
    ∀ a b c : List Char, charListLt a b = true → charListLt b c = true →
      charListLt a c = true := by
  intro a
  induction a with
  | nil =>
    intro b c h1 h2
    cases b with
    | nil => simp [charListLt] at h1
    | cons y ys =>
      cases c with
      | nil => simp [charListLt] at h2
      | cons z zs => rfl
  | cons x xs ih =>
    intro b c h1 h2
    cases b with
    | nil => simp [charListLt] at h1
    | cons y ys =>
      cases c with
      | nil => simp [charListLt] at h2
      | cons z zs =>
        rw [show charListLt (x :: xs) (y :: ys)
            = (if x < y then true else if y < x then false else charListLt xs ys) from rfl] at h1
        rw [show charListLt (y :: ys) (z :: zs)
            = (if y < z then true else if z < y then false else charListLt ys zs) from rfl] at h2
        show (if x < z then true else if z < x then false else charListLt xs zs) = true
        by_cases hxy : x < y
        · by_cases hyz : y < z
          · rw [if_pos (lt_trans hxy hyz)]
          · rw [if_neg hyz] at h2
            by_cases hzy : z < y
            · rw [if_pos hzy] at h2; exact absurd h2 (by simp)
            · have hyzeq : y = z := le_antisymm (not_lt.mp hzy) (not_lt.mp hyz)
              rw [if_pos (hyzeq ▸ hxy)]
        · rw [if_neg hxy] at h1
          by_cases hyx : y < x
          · rw [if_pos hyx] at h1; exact absurd h1 (by simp)
          · rw [if_neg hyx] at h1
            have hxyeq : x = y := le_antisymm (not_lt.mp hyx) (not_lt.mp hxy)
            by_cases hyz : y < z
            · rw [if_pos (hxyeq ▸ hyz)]
            · rw [if_neg hyz] at h2
              by_cases hzy : z < y
              · rw [if_pos hzy] at h2; exact absurd h2 (by simp)
              · rw [if_neg hzy] at h2
                have hyzeq : y = z := le_antisymm (not_lt.mp hzy) (not_lt.mp hyz)
                have hxz : ¬ x < z := by rw [hxyeq, hyzeq]; exact lt_irrefl z
                have hzx : ¬ z < x := by rw [hxyeq, hyzeq]; exact lt_irrefl z
                rw [if_neg hxz, if_neg hzx]
                exact ih ys zs h1 h2

theorem charListLt_eq_of_incomp :
    ∀ a b : List Char, charListLt a b = false → charListLt b a = false → a = b := by
  intro a
  induction a with
  | nil =>
    intro b h1 _
    cases b with
    | nil => rfl
    | cons y ys => simp [charListLt] at h1
  | cons x xs ih =>
    intro b h1 h2
    cases b with
    | nil => simp [charListLt] at h2
    | cons y ys =>
      rw [show charListLt (x :: xs) (y :: ys)
          = (if x < y then true else if y < x then false else charListLt xs ys) from rfl] at h1
      rw [show charListLt (y :: ys) (x :: xs)
          = (if y < x then true else if x < y then false else charListLt ys xs) from rfl] at h2
      by_cases hxy : x < y
      · rw [if_pos hxy] at h1; exact absurd h1 (by simp)
      · by_cases hyx : y < x
        · rw [if_neg hxy, if_pos hyx] at h2; exact absurd h2 (by simp)
        · rw [if_neg hxy, if_neg hyx] at h1
          rw [if_neg hyx, if_neg hxy] at h2
          have hxyeq : x = y := le_antisymm (not_lt.mp hyx) (not_lt.mp hxy)
          rw [hxyeq, ih ys h1 h2]

theorem pyStrLt_irrefl (s : String) : pyStrLt s s = false :=
  charListLt_irrefl s.data

theorem pyStrLt_asymm (a b : String) (h : pyStrLt a b = true) : pyStrLt b a = false :=
  charListLt_asymm a.data b.data h

theorem pyStrLt_trans (a b c : String) (h1 : pyStrLt a b = true)
    (h2 : pyStrLt b c = true) : pyStrLt a c = true :=
  charListLt_trans a.data b.data c.data h1 h2

theorem pyStrLt_eq_of_incomp (a b : String) (h1 : pyStrLt a b = false)
    (h2 : pyStrLt b a = false) : a = b :=
  String.ext (charListLt_eq_of_incomp a.data b.data h1 h2)

/-- Characterization of the Request comparison: strict lexicographic order
on (timestamp, process_id); resource_id is not consulted. -/
theorem reqLt_iff (a b : Request) :
    Request.ltB a b = true ↔
      (a.timestamp < b.timestamp
        ∨ (a.timestamp = b.timestamp ∧ pyStrLt a.process_id b.process_id = true)) := by
  unfold Request.ltB
  by_cases h : a.timestamp = b.timestamp
  · simp [h]
  · have hbeq : (a.timestamp == b.timestamp) = false := by
      simpa using h
    simp [hbeq, h]

theorem reqLt_irrefl (a : Request) : Request.ltB a a = false := by
  unfold Request.ltB
  simp [pyStrLt_irrefl]

theorem reqLt_asymm (a b : Request) (h : Request.ltB a b = true) :
    Request.ltB b a = false := by
  rw [reqLt_iff] at h
  cases hba : Request.ltB b a with
  | false => rfl
  | true =>
    rw [reqLt_iff] at hba
    exfalso
    rcases h with h | ⟨he, hs⟩
    · rcases hba with h' | ⟨he', _⟩
      · omega
      · omega
    · rcases hba with h' | ⟨_, hs'⟩
      · omega
      · rw [pyStrLt_asymm _ _ hs] at hs'
        exact absurd hs' (by simp)

theorem reqLt_trans (a b c : Request) (h1 : Request.ltB a b = true)
    (h2 : Request.ltB b c = true) : Request.ltB a c = true := by
  rw [reqLt_iff] at h1 h2 ⊢
  rcases h1 with h1 | ⟨he1, hs1⟩
  · rcases h2 with h2 | ⟨he2, _⟩
    · exact Or.inl (lt_trans h1 h2)
    · exact Or.inl (he2 ▸ h1)
  · rcases h2 with h2 | ⟨he2, hs2⟩
    · exact Or.inl (he1 ▸ h2)
    · exact Or.inr ⟨he1.trans he2, pyStrLt_trans _ _ _ hs1 hs2⟩

theorem reqLt_negtrans (a b c : Request) (h1 : Request.ltB a b = false)
    (h2 : Request.ltB b c = false) : Request.ltB a c = false := by
  cases hac : Request.ltB a c with
  | false => rfl
  | true =>
    exfalso
    rw [reqLt_iff] at hac
    have h1' : ¬ (a.timestamp < b.timestamp
        ∨ (a.timestamp = b.timestamp ∧ pyStrLt a.process_id b.process_id = true)) := by
      intro hcon
      rw [(reqLt_iff a b).mpr hcon] at h1
      exact absurd h1 (by simp)
    have h2' : ¬ (b.timestamp < c.timestamp
        ∨ (b.timestamp = c.timestamp ∧ pyStrLt b.process_id c.process_id = true)) := by
      intro hcon
      rw [(reqLt_iff b c).mpr hcon] at h2
      exact absurd h2 (by simp)
    push_neg at h1' h2'
    rcases hac with hlt | ⟨heq, hstr⟩
    · omega
    · have hba : b.timestamp ≤ a.timestamp := by omega
      have hcb : c.timestamp ≤ b.timestamp := by omega
      have heab : a.timestamp = b.timestamp := by omega
      have hebc : b.timestamp = c.timestamp := by omega
      have hs1 : pyStrLt a.process_id b.process_id = false := by
        have := h1'.2 heab
        cases hval : pyStrLt a.process_id b.process_id with
        | false => rfl
        | true => exact absurd hval this
      have hs2 : pyStrLt b.process_id c.process_id = false := by
        have := h2'.2 hebc
        cases hval : pyStrLt b.process_id c.process_id with
        | false => rfl
        | true => exact absurd hval this
      -- from not (a < b): either b < a or a = b as strings
      cases hba' : pyStrLt b.process_id a.process_id with
      | true =>
        have := pyStrLt_trans _ _ _ hba' hstr
        rw [this] at hs2
        exact absurd hs2 (by simp)
      | false =>
        have : a.process_id = b.process_id := pyStrLt_eq_of_incomp _ _ hs1 hba'
        rw [this] at hstr
        rw [hstr] at hs2
        exact absurd hs2 (by simp)

theorem reqLt_key_eq_of_incomp (a b : Request) (h1 : Request.ltB a b = false)
    (h2 : Request.ltB b a = false) :
    a.timestamp = b.timestamp ∧ a.process_id = b.process_id := by
  have h1' : ¬ (a.timestamp < b.timestamp
      ∨ (a.timestamp = b.timestamp ∧ pyStrLt a.process_id b.process_id = true)) := by
    intro hcon
    rw [(reqLt_iff a b).mpr hcon] at h1
    exact absurd h1 (by simp)
  have h2' : ¬ (b.timestamp < a.timestamp
      ∨ (b.timestamp = a.timestamp ∧ pyStrLt b.process_id a.process_id = true)) := by
    intro hcon
    rw [(reqLt_iff b a).mpr hcon] at h2
    exact absurd h2 (by simp)
  push_neg at h1' h2'
  have heq : a.timestamp = b.timestamp := by omega
  refine ⟨heq, ?_⟩
  have hs1 := h1'.2 heq
  have hs2 := h2'.2 heq.symm
  refine pyStrLt_eq_of_incomp _ _ ?_ ?_
  · cases hval : pyStrLt a.process_id b.process_id with
    | false => rfl
    | true => exact absurd hval hs1
  · cases hval : pyStrLt b.process_id a.process_id with
    | false => rfl
    | true => exact absurd hval hs2

theorem reqLe_of_not_lt {a b : Request} (h : Request.ltB b a = false) :
    reqLe a b = true := by
  unfold reqLe
  rw [h]
  rfl

theorem not_lt_of_reqLe {a b : Request} (h : reqLe a b = true) :
    Request.ltB b a = false := by
  unfold reqLe at h
  cases hval : Request.ltB b a with
  | false => rfl
  | true => rw [hval] at h; exact absurd h (by simp)

theorem reqLe_trans {a b c : Request} (h1 : reqLe a b = true)
    (h2 : reqLe b c = true) : reqLe a c = true :=
  reqLe_of_not_lt (reqLt_negtrans _ _ _ (not_lt_of_reqLe h2) (not_lt_of_reqLe h1))

/-! ### Facts about the stable sort -/

theorem mem_pyInsert {α : Type} (lt : α → α → Bool) (x z : α) :
    ∀ l : List α, z ∈ pyInsert lt x l ↔ z = x ∨ z ∈ l := by
  intro l
  induction l with
  | nil => simp [pyInsert]
  | cons y ys ih =>
    show z ∈ (if lt y x then y :: pyInsert lt x ys else x :: y :: ys) ↔ _
    by_cases h : lt y x
    · rw [if_pos h]
      simp only [List.mem_cons, ih]
      tauto
    · rw [if_neg h]
      simp only [List.mem_cons]

theorem pyInsert_perm {α : Type} (lt : α → α → Bool) (x : α) :
    ∀ l : List α, (pyInsert lt x l).Perm (x :: l) := by
  intro l
  induction l with
  | nil => exact List.Perm.refl _
  | cons y ys ih =>
    show (if lt y x then y :: pyInsert lt x ys else x :: y :: ys).Perm _
    by_cases h : lt y x
    · rw [if_pos h]
      exact (ih.cons y).trans (List.Perm.swap x y ys)
    · rw [if_neg h]

theorem pySort_perm {α : Type} (lt : α → α → Bool) :
    ∀ l : List α, (pySort lt l).Perm l := by
  intro l
  induction l with
  | nil => exact List.Perm.refl _
  | cons x xs ih =>
    show (pyInsert lt x (pySort lt xs)).Perm (x :: xs)
    exact (pyInsert_perm lt x (pySort lt xs)).trans (ih.cons x)

theorem pairwise_pyInsert (x : Request) :
    ∀ l : List Request, l.Pairwise (fun a b => reqLe a b = true) →
      (pyInsert Request.ltB x l).Pairwise (fun a b => reqLe a b = true) := by
  intro l
  induction l with
  | nil => intro _; simp [pyInsert]
  | cons y ys ih =>
    intro h
    rw [List.pairwise_cons] at h
    obtain ⟨hy, hys⟩ := h
    show List.Pairwise _ (if Request.ltB y x then y :: pyInsert Request.ltB x ys else x :: y :: ys)
    by_cases hlt : Request.ltB y x = true
    · rw [if_pos hlt]
      rw [List.pairwise_cons]
      refine ⟨?_, ih hys⟩
      intro z hz
      rcases (mem_pyInsert Request.ltB x z ys).mp hz with hz | hz
      · subst hz
        exact reqLe_of_not_lt (reqLt_asymm _ _ hlt)
      · exact hy z hz
    · rw [if_neg hlt]
      rw [List.pairwise_cons]
      refine ⟨?_, List.pairwise_cons.mpr ⟨hy, hys⟩⟩
      intro z hz
      have hxy : reqLe x y = true :=
        reqLe_of_not_lt (Bool.not_eq_true _ ▸ hlt)
      rcases List.mem_cons.mp hz with hz | hz
      · subst hz; exact hxy
      · exact reqLe_trans hxy (hy z hz)

theorem pairwise_pySort :
    ∀ l : List Request, (pySort Request.ltB l).Pairwise (fun a b => reqLe a b = true) := by
  intro l
  induction l with
  | nil => simp [pySort]
  | cons x xs ih => exact pairwise_pyInsert x _ ih

theorem pyInsert_of_all (x : Request) (l : List Request)
    (h : ∀ z ∈ l, Request.ltB z x = false) :
    pyInsert Request.ltB x l = x :: l := by
  cases l with
  | nil => rfl
  | cons y ys =>
    show (if Request.ltB y x then y :: pyInsert Request.ltB x ys else x :: y :: ys) = _
    rw [h y (List.mem_cons_self y ys)]
    rfl

/-- Stability at the back: appending a record to a sorted queue and
re-sorting places it exactly after every element it does not strictly
precede. -/
theorem pySort_sorted_append_single (r : Request) :
    ∀ l : List Request, l.Pairwise (fun a b => reqLe a b = true) →
      pySort Request.ltB (l ++ [r]) =
        l.takeWhile (fun y => reqLe y r) ++ r :: l.dropWhile (fun y => reqLe y r) := by
  intro l
  induction l with
  | nil => intro _; rfl
  | cons x l ih =>
    intro h
    rw [List.pairwise_cons] at h
    obtain ⟨hx, hl⟩ := h
    show pyInsert Request.ltB x (pySort Request.ltB (l ++ [r])) = _
    rw [ih hl]
    rw [List.takeWhile_cons, List.dropWhile_cons]
    by_cases hf : reqLe x r = true
    · rw [if_pos hf, if_pos hf]
      refine (pyInsert_of_all x _ ?_).trans (by simp)
      intro z hz
      rcases List.mem_append.mp hz with hz | hz
      · have : z ∈ l := (List.takeWhile_sublist _).mem hz
        exact not_lt_of_reqLe (hx z this)
      · rcases List.mem_cons.mp hz with hz | hz
        · subst hz; exact not_lt_of_reqLe hf
        · have : z ∈ l := (List.dropWhile_sublist _).mem hz
          exact not_lt_of_reqLe (hx z this)
    · have hf' : reqLe x r = false := Bool.not_eq_true _ ▸ hf
      rw [if_neg (by simp [hf']), if_neg (by simp [hf'])]
      have hrx : Request.ltB r x = true := by
        unfold reqLe at hf'
        cases hval : Request.ltB r x with
        | true => rfl
        | false => rw [hval] at hf'; exact absurd hf' (by simp)
      have hT : l.takeWhile (fun y => reqLe y r) = [] := by
        cases hTv : l.takeWhile (fun y => reqLe y r) with
        | nil => rfl
        | cons y T2 =>
          exfalso
          have hy_take : y ∈ l.takeWhile (fun y => reqLe y r) := by
            rw [hTv]; exact List.mem_cons_self _ _
          have hyr : reqLe y r = true := by
            have := List.mem_takeWhile_imp hy_take
            simpa using this
          have hy_mem : y ∈ l := (List.takeWhile_sublist _).mem hy_take
          have hyx : Request.ltB y x = false := not_lt_of_reqLe (hx y hy_mem)
          have hry : Request.ltB r y = false := not_lt_of_reqLe hyr
          have := reqLt_negtrans r y x hry hyx
          rw [this] at hrx
          exact absurd hrx (by simp)
      have hD : l.dropWhile (fun y => reqLe y r) = l := by
        have := List.takeWhile_append_dropWhile (fun y => reqLe y r) l
        rw [hT] at this
        simpa using this
      rw [hT, hD]
      show pyInsert Request.ltB x (r :: l) = r :: x :: l
      rw [show pyInsert Request.ltB x (r :: l)
          = (if Request.ltB r x then r :: pyInsert Request.ltB x l else x :: r :: l) from rfl]
      rw [hrx]
      simp only [if_true]
      rw [pyInsert_of_all x l (fun z hz => not_lt_of_reqLe (hx z hz))]

/-! ### Claim theorems -/

/-- C3: for every clock value and received timestamp r, update returns
current + 1 when r <= current and r + 1 when r > current. -/
theorem C3_update_cases (current r : Nat) :
    (r ≤ current → LogicalClock.update current r = current + 1)
    ∧ (current < r → LogicalClock.update current r = r + 1) := by
  unfold LogicalClock.update
  omega

/-- Witness for C3 at current = 5 with r = 3 and r = 7. -/
theorem C3_update_cases_witness :
    ((3 ≤ 5) ∧ LogicalClock.update 5 3 = 6) ∧ ((5 < 7) ∧ LogicalClock.update 5 7 = 8) :=
  ⟨⟨by decide, (C3_update_cases 5 3).1 (by decide)⟩,
   ⟨by decide, (C3_update_cases 5 7).2 (by decide)⟩⟩

theorem clockReturns_chain (t : Nat) :
    ∀ ops : List ClockOp, List.Chain' (· < ·) (t :: clockReturns t ops) := by
  intro ops
  induction ops generalizing t with
  | nil => exact List.chain'_singleton t
  | cons op ops ih =>
    show List.Chain' (· < ·) (t :: clockStep t op :: clockReturns (clockStep t op) ops)
    rw [List.chain'_cons]
    refine ⟨?_, ih (clockStep t op)⟩
    cases op with
    | tick => exact Nat.lt_succ_self t
    | update r =>
      show t < max t r + 1
      omega

/-- C4: every sequence of tick/update calls returns strictly increasing
values, and update never decreases the counter. -/
theorem C4_returns_strictly_increasing (t : Nat) (ops : List ClockOp) :
    List.Chain' (· < ·) (clockReturns t ops)
    ∧ ∀ r, t < LogicalClock.update t r := by
  refine ⟨(clockReturns_chain t ops).tail, ?_⟩
  intro r
  unfold LogicalClock.update
  omega

/-- C5 fails as stated: two distinct records agreeing on timestamp and
process_id but differing in resource_id are incomparable, so neither a < b
nor b < a holds for this distinct pair. -/
theorem C5_counterexample :
    ((⟨1, "P", "R1"⟩ : Request) ≠ ⟨1, "P", "R2"⟩)
    ∧ Request.ltB ⟨1, "P", "R1"⟩ ⟨1, "P", "R2"⟩ = false
    ∧ Request.ltB ⟨1, "P", "R2"⟩ ⟨1, "P", "R1"⟩ = false := by decide

/-- C5 amended: the Request comparison is a strict total order on the
(timestamp, process_id) projection: records differing in timestamp or
process_id satisfy exactly one of a < b, b < a, and the relation is
transitive on all records. Records differing only in resource_id compare
unordered. -/
theorem C5_strict_total_on_keys :
    (∀ a b : Request,
        (a.timestamp ≠ b.timestamp ∨ a.process_id ≠ b.process_id) →
        (Request.ltB a b = true ↔ Request.ltB b a = false))
    ∧ (∀ a b c : Request, Request.ltB a b = true → Request.ltB b c = true →
        Request.ltB a c = true) := by
  constructor
  · intro a b hk
    constructor
    · exact reqLt_asymm a b
    · intro hba
      cases hab : Request.ltB a b with
      | true => rfl
      | false =>
        have := reqLt_key_eq_of_incomp a b hab hba
        tauto
  · exact reqLt_trans

/-- Witness for C5 on three records with distinct timestamps. -/
theorem C5_strict_total_on_keys_witness :
    (Request.ltB ⟨1, "A", "R"⟩ ⟨2, "B", "R"⟩ = true ↔
      Request.ltB ⟨2, "B", "R"⟩ ⟨1, "A", "R"⟩ = false)
    ∧ Request.ltB ⟨1, "A", "R"⟩ ⟨3, "C", "R"⟩ = true :=
  ⟨C5_strict_total_on_keys.1 ⟨1, "A", "R"⟩ ⟨2, "B", "R"⟩ (by decide),
   C5_strict_total_on_keys.2 ⟨1, "A", "R"⟩ ⟨2, "B", "R"⟩ ⟨3, "C", "R"⟩
     (by decide) (by decide)⟩

/-- C7: for every server state and incoming request, RequestEntry grants
the reply unconditionally, its clock is the tick of the update with the
request's timestamp, the reply carries that fresh timestamp, and the queue
is exactly the insertion of the incoming request — nothing in the
receiver's own pending state is consulted. -/
theorem C7_request_entry_always_grants (s : ServerState) (request : RequestMessage) :
    (RequestEntry s request).2.granted = true
    ∧ (RequestEntry s request).1.clock
        = LogicalClock.tick (LogicalClock.update s.clock request.timestamp)
    ∧ (RequestEntry s request).2.timestamp = (RequestEntry s request).1.clock
    ∧ (RequestEntry s request).1.mutex_state
        = s.mutex_state.add_request
            ⟨request.timestamp, request.process_id, request.resource_id⟩
    ∧ (RequestEntry s request).2.process_id = s.mutex_state.process_id :=
  ⟨rfl, rfl, rfl, rfl, rfl⟩

/-- C10: while in_critical_section is set, the admission predicate is false
for every resource, including resources other than the held one. -/
theorem C10_no_second_entry (s : MutualExclusionState) (resource_id : String)
    (h : s.in_critical_section = true) :
    s.can_enter_critical_section resource_id = false := by
  unfold MutualExclusionState.can_enter_critical_section
  rw [h]
  simp

/-- Witness for C10: a process holding "R" is denied admission for "S". -/
theorem C10_no_second_entry_witness :
    ((MutualExclusionState.init "Process-1" [50052]).enter_critical_section "R").in_critical_section = true
    ∧ ((MutualExclusionState.init "Process-1" [50052]).enter_critical_section "R").can_enter_critical_section "S" = false :=
  ⟨by decide,
   C10_no_second_entry ((MutualExclusionState.init "Process-1" [50052]).enter_critical_section "R") "S" (by decide)⟩

/-- C2 fails on the code: in a three-process run with no message loss, the
schedule violatingSchedule (Process-1's outgoing request merely delayed)
ends with Process-1 and Process-2 simultaneously inside the critical
section for resource "R".  Every entry in the schedule passes through
can_enter_critical_section, and every peer replies granted = true, yet
mutual exclusion is broken: replies are never deferred, and nothing orders
a process's request message before its later reply to someone else, so the
classical Lamport safety argument does not apply to this implementation. -/
theorem C2_mutual_exclusion_violated :
    inCS finalWorld "Process-1" "R" = true
    ∧ inCS finalWorld "Process-2" "R" = true
    ∧ ("Process-1" : String) ≠ "Process-2" := by decide

/-- C8: the acknowledgment set demanded by the admission check depends only
on the NUMBER of peer ports, being synthesized from the naming pattern
"Process-1" .. "Process-(n+1)" minus the own id; consequently, whenever any
real peer's id is not of that pattern, the demanded set differs from the
real peer set. -/
theorem C8_expected_replies_synthesized (self : String) :
    (∀ ports ports' : List Nat, ports.length = ports'.length →
        expectedReplies self ports = expectedReplies self ports')
    ∧ (∀ (ports : List Nat) (realPeers : List String),
        (∃ p ∈ realPeers, ∀ i, i < ports.length + 1 →
            p ≠ "Process-" ++ toString (i + 1)) →
        ¬ (∀ x, x ∈ expectedReplies self ports ↔ x ∈ realPeers)) := by
  constructor
  · intro ports ports' hlen
    unfold expectedReplies
    rw [hlen]
  · rintro ports realPeers ⟨p, hp, hpat⟩ hiff
    have hmem : p ∈ expectedReplies self ports := (hiff p).mpr hp
    unfold expectedReplies at hmem
    rw [List.mem_filter] at hmem
    obtain ⟨hmem, -⟩ := hmem
    rw [List.mem_map] at hmem
    obtain ⟨i, hi, hform⟩ := hmem
    rw [List.mem_range] at hi
    exact hpat i hi hform.symm

/-- Witness for C8: a deployment whose peers are named Beta and Gamma gets
a demanded set (synthesized from the port count) that matches no real
peer. -/
theorem C8_expected_replies_synthesized_witness :
    (([50052, 50053] : List Nat).length = ([1, 2] : List Nat).length
      ∧ expectedReplies "Alpha" [50052, 50053] = expectedReplies "Alpha" [1, 2])
    ∧ ((∃ p ∈ (["Beta", "Gamma"] : List String),
          ∀ i, i < ([50052, 50053] : List Nat).length + 1 →
            p ≠ "Process-" ++ toString (i + 1))
      ∧ ¬ (∀ x, x ∈ expectedReplies "Alpha" [50052, 50053] ↔
            x ∈ (["Beta", "Gamma"] : List String))) :=
  ⟨⟨by decide, (C8_expected_replies_synthesized "Alpha").1 _ _ (by decide)⟩,
   ⟨by decide, (C8_expected_replies_synthesized "Alpha").2 _ _ (by decide)⟩⟩

/-- C6 fails as stated: if the queue already holds a record with the key,
insertion replaces it and removal then deletes it, so the original record
is lost rather than restored. -/
theorem C6_counterexample :
    (((MutualExclusionState.mk "P1" [] [⟨1, "P1", "R"⟩] [] false none
        []).add_request ⟨2, "P1", "R"⟩).remove_request "P1" "R").request_queue = []
    ∧ (MutualExclusionState.mk "P1" [] [⟨1, "P1", "R"⟩] [] false none
        []).request_queue ≠ [] := by decide

/-- C6 amended: on any queue that is sorted and holds no record with the
inserted record's (process_id, resource_id) key — which covers every
reachable queue in which the key is absent — inserting the record and then
removing that key restores exactly the prior queue. -/
theorem C6_insert_then_remove_restores (s : MutualExclusionState) (r : Request)
    (hsorted : s.request_queue.Pairwise (fun a b => reqLe a b = true))
    (hfresh : ∀ x ∈ s.request_queue, x.sameKey r.process_id r.resource_id = false) :
    ((s.add_request r).remove_request r.process_id r.resource_id).request_queue
      = s.request_queue := by
  show removeFromQueue (addToQueue s.request_queue r) r.process_id r.resource_id
      = s.request_queue
  unfold addToQueue removeFromQueue
  have hkept : s.request_queue.filter
      (fun x => !(x.sameKey r.process_id r.resource_id)) = s.request_queue :=
    List.filter_eq_self.mpr (fun a ha => by rw [hfresh a ha]; rfl)
  rw [hkept, pySort_sorted_append_single r _ hsorted, List.filter_append]
  have hTf : (s.request_queue.takeWhile (fun y => reqLe y r)).filter
      (fun x => !(x.sameKey r.process_id r.resource_id))
      = s.request_queue.takeWhile (fun y => reqLe y r) :=
    List.filter_eq_self.mpr
      (fun a ha => by rw [hfresh a ((List.takeWhile_sublist _).mem ha)]; rfl)
  have hDf : (s.request_queue.dropWhile (fun y => reqLe y r)).filter
      (fun x => !(x.sameKey r.process_id r.resource_id))
      = s.request_queue.dropWhile (fun y => reqLe y r) :=
    List.filter_eq_self.mpr
      (fun a ha => by rw [hfresh a ((List.dropWhile_sublist _).mem ha)]; rfl)
  rw [hTf, List.filter_cons, if_neg (by simp [Request.sameKey]), hDf,
    List.takeWhile_append_dropWhile]

/-- Witness for C6 on a two-element sorted queue and a fresh key. -/
theorem C6_insert_then_remove_restores_witness :
    ((MutualExclusionState.mk "A" [] [⟨1, "A", "X"⟩, ⟨2, "B", "Y"⟩] [] false none
        []).request_queue.Pairwise (fun a b => reqLe a b = true))
    ∧ (((MutualExclusionState.mk "A" [] [⟨1, "A", "X"⟩, ⟨2, "B", "Y"⟩] [] false none
        []).add_request ⟨3, "C", "Z"⟩).remove_request "C" "Z").request_queue
      = [⟨1, "A", "X"⟩, ⟨2, "B", "Y"⟩] :=
  ⟨by decide,
   C6_insert_then_remove_restores
     (MutualExclusionState.mk "A" [] [⟨1, "A", "X"⟩, ⟨2, "B", "Y"⟩] [] false none [])
     ⟨3, "C", "Z"⟩ (by decide) (by decide)⟩

theorem addToQueue_keyDistinct (q : List Request) (r : Request)
    (h : q.Pairwise (fun a b =>
        ¬(a.process_id = b.process_id ∧ a.resource_id = b.resource_id))) :
    (addToQueue q r).Pairwise (fun a b =>
        ¬(a.process_id = b.process_id ∧ a.resource_id = b.resource_id)) := by
  unfold addToQueue
  refine ((pySort_perm Request.ltB _).pairwise_iff (fun hxy => fun hc => hxy ⟨hc.1.symm, hc.2.symm⟩)).mpr ?_
  rw [List.pairwise_append]
  refine ⟨h.filter _, List.pairwise_singleton _ _, ?_⟩
  intro a ha b hb
  rw [List.mem_singleton] at hb
  rw [List.mem_filter] at ha
  obtain ⟨-, hkey⟩ := ha
  intro hc
  rw [hb] at hc
  have hsk : a.sameKey r.process_id r.resource_id = true := by
    simp [Request.sameKey, hc.1, hc.2]
  rw [hsk] at hkey
  simp at hkey

theorem applyQOps_queue_invariant :
    ∀ (ops : List QOp) (s : MutualExclusionState),
      s.request_queue.Pairwise (fun a b => reqLe a b = true) →
      s.request_queue.Pairwise (fun a b =>
          ¬(a.process_id = b.process_id ∧ a.resource_id = b.resource_id)) →
      (applyQOps s ops).request_queue.Pairwise (fun a b => reqLe a b = true)
      ∧ (applyQOps s ops).request_queue.Pairwise (fun a b =>
          ¬(a.process_id = b.process_id ∧ a.resource_id = b.resource_id)) := by
  intro ops
  induction ops with
  | nil => intro s h1 h2; exact ⟨h1, h2⟩
  | cons op ops ih =>
    intro s h1 h2
    show ((applyQOps (applyQOp s op) ops).request_queue.Pairwise _)
      ∧ ((applyQOps (applyQOp s op) ops).request_queue.Pairwise _)
    cases op with
    | add r =>
      exact ih (s.add_request r) (pairwise_pySort _) (addToQueue_keyDistinct _ r h2)
    | remove pid rid =>
      exact ih (s.remove_request pid rid) (h1.filter _) (h2.filter _)

/-- C9: starting from the empty queue of a fresh coordinator, any sequence
of add_request / remove_request operations leaves the queue sorted under
the Request order with pairwise-distinct (process_id, resource_id) keys,
and its first element (when present) is below no other entry. -/
theorem C9_queue_sorted_unique_head_min (process_id : String)
    (peer_ports : List Nat) (ops : List QOp) :
    (applyQOps (MutualExclusionState.init process_id peer_ports) ops).request_queue.Pairwise
        (fun a b => reqLe a b = true)
    ∧ (applyQOps (MutualExclusionState.init process_id peer_ports) ops).request_queue.Pairwise
        (fun a b => ¬(a.process_id = b.process_id ∧ a.resource_id = b.resource_id))
    ∧ (∀ front rest,
        (applyQOps (MutualExclusionState.init process_id peer_ports) ops).request_queue
          = front :: rest →
        ∀ x ∈ (applyQOps (MutualExclusionState.init process_id peer_ports) ops).request_queue,
          Request.ltB x front = false) := by
  obtain ⟨h1, h2⟩ := applyQOps_queue_invariant ops
    (MutualExclusionState.init process_id peer_ports)
    (List.Pairwise.nil) (List.Pairwise.nil)
  refine ⟨h1, h2, ?_⟩
  intro front rest heq x hx
  rw [heq] at h1 hx
  rw [List.pairwise_cons] at h1
  rcases List.mem_cons.mp hx with hx | hx
  · subst hx; exact reqLt_irrefl x
  · exact not_lt_of_reqLe (h1.1 x hx)

/-- Witness for C9: after adding (2,"B","S") then (1,"A","R") and removing
an absent key, the head is ("A", 1) and the later record is not below it. -/
theorem C9_queue_sorted_unique_head_min_witness :
    Request.ltB ⟨2, "B", "S"⟩ ⟨1, "A", "R"⟩ = false :=
  (C9_queue_sorted_unique_head_min "P" []
      [QOp.add ⟨2, "B", "S"⟩, QOp.add ⟨1, "A", "R"⟩, QOp.remove "Z" "R"]).2.2
    ⟨1, "A", "R"⟩ [⟨2, "B", "S"⟩] (by decide) ⟨2, "B", "S"⟩ (by decide)

/-- C1 fails as stated, in both directions.  First: in a state with no
reply-set entry for the resource at all (so no peer has acknowledged and
conjunct (b) is as failed as it can be), can_enter_critical_section skips
the acknowledgment check entirely and returns true.  Second: in a state
where the process already sits in a critical section while (a) and (b)
both hold, the predicate returns false, so "exactly when (a) and (b)" also
fails on reachable states. -/
theorem C1_counterexample :
    ((MutualExclusionState.mk "Process-1" [50052] [⟨1, "Process-1", "R"⟩] []
        false none [("R", ⟨1, "Process-1", "R"⟩)]).can_enter_critical_section "R" = true
      ∧ List.lookup "R"
          (MutualExclusionState.mk "Process-1" [50052] [⟨1, "Process-1", "R"⟩] []
            false none [("R", ⟨1, "Process-1", "R"⟩)]).pending_replies = none
      ∧ expectedReplies "Process-1" [50052] ≠ [])
    ∧ ((MutualExclusionState.mk "Process-1" [50052] [⟨1, "Process-1", "R"⟩]
        [("R", ["Process-2"])] true (some "R")
        [("R", ⟨1, "Process-1", "R"⟩)]).can_enter_critical_section "R" = false
      ∧ List.lookup "R"
          (MutualExclusionState.mk "Process-1" [50052] [⟨1, "Process-1", "R"⟩]
            [("R", ["Process-2"])] true (some "R")
            [("R", ⟨1, "Process-1", "R"⟩)]).our_requests = some ⟨1, "Process-1", "R"⟩
      ∧ (MutualExclusionState.mk "Process-1" [50052] [⟨1, "Process-1", "R"⟩]
          [("R", ["Process-2"])] true (some "R")
          [("R", ⟨1, "Process-1", "R"⟩)]).request_queue.head? = some ⟨1, "Process-1", "R"⟩
      ∧ ∀ p ∈ expectedReplies "Process-1" [50052], p ∈ (["Process-2"] : List String)) := by
  decide

/-- C1 amended: on states that are not already inside a critical section
and whose pending_replies dict has an entry for the resource (both hold in
every reachable state that is waiting on an own request),
can_enter_critical_section returns true exactly when (a) the stored own
request is the queue head and (b) the recorded reply set contains every
synthesized peer id; when either conjunct fails on such a state it returns
false. -/
theorem C1_admission_iff (s : MutualExclusionState) (resource_id : String)
    (received : List String)
    (h1 : s.in_critical_section = false)
    (h2 : List.lookup resource_id s.pending_replies = some received) :
    s.can_enter_critical_section resource_id = true ↔
      ((∃ our, List.lookup resource_id s.our_requests = some our
          ∧ s.request_queue.head? = some our)
        ∧ ∀ p ∈ expectedReplies s.process_id s.peer_ports, p ∈ received) := by
  unfold MutualExclusionState.can_enter_critical_section
  rw [h1, h2]
  cases hreq : List.lookup resource_id s.our_requests with
  | none => simp
  | some our =>
    cases hhead : s.request_queue.head? with
    | none => simp
    | some front =>
      by_cases heqf : front = our
      · subst heqf
        simp only [bne_self_eq_false, Bool.false_eq_true, if_false, Option.some.injEq]
        constructor
        · intro hcond
          refine ⟨⟨front, rfl, rfl⟩, ?_⟩
          intro p hp
          by_cases hall : (expectedReplies s.process_id s.peer_ports).all
              (fun q => received.contains q) = true
          · exact List.elem_iff.mp (List.all_eq_true.mp hall p hp)
          · rw [if_neg hall] at hcond
            exact absurd hcond (by simp)
        · rintro ⟨-, hsub⟩
          have hall : (expectedReplies s.process_id s.peer_ports).all
              (fun q => received.contains q) = true :=
            List.all_eq_true.mpr (fun p hp => List.elem_iff.mpr (hsub p hp))
          rw [if_pos hall]
      · have hbne : (front != our) = true := bne_iff_ne.mpr heqf
        simp only [hbne, Bool.false_eq_true, if_false, if_true, eq_self_iff_true,
          false_iff, Option.some.injEq]
        rintro ⟨⟨our', h', hh'⟩, -⟩
        exact heqf (hh'.trans h'.symm)

/-- Witness for C1 on a waiting state whose single peer has replied. -/
theorem C1_admission_iff_witness :
    ((MutualExclusionState.mk "Process-1" [50052] [⟨1, "Process-1", "R"⟩]
        [("R", ["Process-2"])] false none
        [("R", ⟨1, "Process-1", "R"⟩)]).in_critical_section = false
      ∧ List.lookup "R"
          (MutualExclusionState.mk "Process-1" [50052] [⟨1, "Process-1", "R"⟩]
            [("R", ["Process-2"])] false none
            [("R", ⟨1, "Process-1", "R"⟩)]).pending_replies = some ["Process-2"])
    ∧ ((MutualExclusionState.mk "Process-1" [50052] [⟨1, "Process-1", "R"⟩]
        [("R", ["Process-2"])] false none
        [("R", ⟨1, "Process-1", "R"⟩)]).can_enter_critical_section "R" = true ↔
      ((∃ our, List.lookup "R"
            (MutualExclusionState.mk "Process-1" [50052] [⟨1, "Process-1", "R"⟩]
              [("R", ["Process-2"])] false none
              [("R", ⟨1, "Process-1", "R"⟩)]).our_requests = some our
          ∧ (MutualExclusionState.mk "Process-1" [50052] [⟨1, "Process-1", "R"⟩]
              [("R", ["Process-2"])] false none
              [("R", ⟨1, "Process-1", "R"⟩)]).request_queue.head? = some our)
        ∧ ∀ p ∈ expectedReplies "Process-1" [50052],
            p ∈ (["Process-2"] : List String))) :=
  ⟨⟨by decide, by decide⟩,
   C1_admission_iff
     (MutualExclusionState.mk "Process-1" [50052] [⟨1, "Process-1", "R"⟩]
       [("R", ["Process-2"])] false none [("R", ⟨1, "Process-1", "R"⟩)])
     "R" ["Process-2"] (by decide) (by decide)⟩
